import Mathlib

/-!
Verification development for a 3D particle visualization script.

The script has two components:
- `load_particle_data`: opens an HDF5 snapshot file (scoped, read-only),
  resolves the group `PartType<part_type>`, reads the `Coordinates` table
  (N×3, centimeters), divides every element by 3.0857e21 (cm per kpc),
  splits the result into columns x, y, z, and reads the optional `Masses`
  table (absent ↦ null).
- `plot_3d_particles`: optionally subsamples the arrays with a stride,
  derives per-point sizes from the masses (constant 0.1 when masses are
  null, else 0.1 + 4.9 * masses / max(masses)), draws a scatter plot, and
  performs three side effects in order: save the figure to the fixed file
  name single_nebula_1.png, tighten the layout, show the window.

Numeric values are modelled by ℚ; the IEEE non-finite values produced by
division by zero are modelled explicitly by the type `FVal` below.
-/

/-- The unit-conversion constant of the script: 3.0857e21 centimeters
per kiloparsec, as an exact rational. -/
def CM_PER_KPC : ℚ := 30857 * 10 ^ 17

/-- One particle group of the snapshot file: an optional N×3 `Coordinates`
table (rows are (x, y, z) in centimeters) and an optional `Masses` table. -/
structure H5Group where
  coordinates : Option (List (ℚ × ℚ × ℚ))
  masses : Option (List ℚ)
deriving DecidableEq

/-- The snapshot file: named groups (e.g. "PartType0"), looked up by name. -/
structure H5File where
  groups : List (String × H5Group)
deriving DecidableEq

/-- Group lookup, modelling `f['PartTypeN']`. -/
def H5File.findGroup (f : H5File) (name : String) : Option H5Group :=
  f.groups.lookup name

/-- The failure conditions of the loader, both propagated `KeyError`s. -/
inductive LoadError where
  | missingGroup
  | missingCoordinates
deriving DecidableEq

/-- The loader's successful result: three coordinate columns in kpc and the
optional mass array. -/
structure LoadedData where
  x : List ℚ
  y : List ℚ
  z : List ℚ
  masses : Option (List ℚ)
deriving DecidableEq

/-- Observable file-handle events of the loader. -/
inductive FileEvent where
  | openFile
  | closeFile
deriving DecidableEq

/-- The body of the `with` block in `load_particle_data`:
group lookup, `Coordinates` read and unit conversion, column split,
conditional `Masses` read. Failures are the propagated `KeyError`s. -/
def load_body (file : H5File) (part_type : Nat) : Except LoadError LoadedData :=
  match file.findGroup ("PartType" ++ toString part_type) with
  | none => .error .missingGroup
  | some group =>
    match group.coordinates with
    | none => .error .missingCoordinates
    | some raw =>
      let coords := raw.map (fun c => (c.1 / CM_PER_KPC, c.2.1 / CM_PER_KPC, c.2.2 / CM_PER_KPC))
      .ok { x := coords.map (fun c => c.1)
            y := coords.map (fun c => c.2.1)
            z := coords.map (fun c => c.2.2)
            masses := group.masses }

/-- Model of load_particle_data: the `with h5py.File(filename, 'r') as f:` block.
Returns the file state after the call (the call only reads, so it is the
input file unchanged), the file-handle events, and the body's result.
The `with` construct closes the handle on every exit path, so the event
trace is open-then-close whether the body succeeds or fails. -/
def load_particle_data (file : H5File) (part_type : Nat) :
    H5File × List FileEvent × Except LoadError LoadedData :=
  (file, [FileEvent.openFile, FileEvent.closeFile], load_body file part_type)

/-- A floating-point value as observed by the size computation: an exact
finite number, NaN, or a signed infinity. -/
inductive FVal where
  | num : ℚ → FVal
  | nan : FVal
  | inf : Bool → FVal
deriving DecidableEq

/-- IEEE division as used by `masses / np.max(masses)`: a finite quotient
when the divisor is nonzero, NaN for 0/0, signed infinity otherwise. -/
def fdiv (a b : ℚ) : FVal :=
  if b = 0 then (if a = 0 then .nan else .inf (0 < a)) else .num (a / b)

/-- The affine size map `0.1 + 4.9 * r` applied to one mass ratio.
NaN propagates; infinities keep their sign since 4.9 > 0. -/
def pointSize (v : FVal) : FVal :=
  match v with
  | .num q => .num (1 / 10 + 49 / 10 * q)
  | .nan => .nan
  | .inf b => .inf b

/-- Model of `np.max` on a 1D array: none (a raised error) on the empty array,
otherwise the maximum element. -/
def npMax : List ℚ → Option ℚ
  | [] => none
  | a :: rest => some (rest.foldl max a)

/-- The renderer's size computation:
`sizes = 0.1` then `if masses is not None: sizes = 0.1 + 4.9 * (masses / np.max(masses))`.
The result is a scalar (broadcast constant) or a per-point array; `none`
is the error `np.max` raises on an empty array. -/
def computeSizes : Option (List ℚ) → Option (ℚ ⊕ List FVal)
  | none => some (Sum.inl (1 / 10))
  | some ms =>
    match npMax ms with
    | none => none
    | some mx => some (Sum.inr (ms.map (fun m => pointSize (fdiv m mx))))

/-- A heap of numeric arrays; references are indices into `arrays`.
The caller's arrays live here so that non-mutation is observable. -/
structure Store where
  arrays : List (List ℚ)
deriving DecidableEq

/-- Allocate a fresh array, returning the new store and the reference. -/
def Store.alloc (s : Store) (a : List ℚ) : Store × Nat :=
  ({ arrays := s.arrays ++ [a] }, s.arrays.length)

/-- Read the array behind a reference. -/
def Store.readArr (s : Store) (r : Nat) : List ℚ :=
  s.arrays.getD r []

/-- Stepping helper for the slice `arr[::k]`: `c` counts the elements still
to skip before the next one is kept. -/
def everyNthAux (k : Nat) : Nat → List ℚ → List ℚ
  | _, [] => []
  | 0, a :: rest => a :: everyNthAux k (k - 1) rest
  | c + 1, _ :: rest => everyNthAux k c rest

/-- Python `arr[::k]` for k ≥ 1: the elements at indices 0, k, 2k, ... -/
def everyNth (k : Nat) (l : List ℚ) : List ℚ := everyNthAux k 0 l

/-- One subsampling assignment `arr = arr[::subsample]`, executed only when
`subsample > 1`; the slice is a fresh derived array, allocated in the store. -/
def sliceStep (subsample : Int) (st : Store) (a : List ℚ) : Store × List ℚ :=
  if 1 < subsample then
    let a' := everyNth subsample.toNat a
    ((st.alloc a').1, a')
  else (st, a)

/-- Observable side effects of the renderer, in program order. -/
inductive SideEffect where
  | savefig : String → SideEffect
  | tight_layout : SideEffect
  | showFig : SideEffect
deriving DecidableEq

/-- The figure produced by the renderer: the scatter data, the size
argument, the fixed styling, and the camera. `masses_used` records the
local `masses` variable after subsampling (the value the sizes are
computed from). -/
structure RenderResult where
  scatter_x : List ℚ
  scatter_y : List ℚ
  scatter_z : List ℚ
  masses_used : Option (List ℚ)
  sizes : ℚ ⊕ List FVal
  color : String
  alpha : ℚ
  edgecolors : String
  depthshade : Bool
  xlabel : String
  ylabel : String
  zlabel : String
  title_count : Nat
  grid : Bool
  elev : Int
  azim : Int
deriving DecidableEq

/-- Model of `plot_3d_particles(x, y, z, masses=None, subsample=1)`.
Takes references to the caller's arrays in the store. Returns the emitted
side effects, the store after the call, and the figure (none when the size
computation raises, which happens before any side effect). -/
def plot_3d_particles (s : Store) (xr yr zr : Nat) (mr : Option Nat) (subsample : Int) :
    List SideEffect × Store × Option RenderResult :=
  let x := s.readArr xr
  let y := s.readArr yr
  let z := s.readArr zr
  let masses := mr.map s.readArr
  let p1 := sliceStep subsample s x
  let x1 := p1.2
  let p2 := sliceStep subsample p1.1 y
  let y1 := p2.2
  let p3 := sliceStep subsample p2.1 z
  let z1 := p3.2
  let p4 : Store × Option (List ℚ) :=
    match masses with
    | none => (p3.1, (none : Option (List ℚ)))
    | some ms => ((sliceStep subsample p3.1 ms).1, some (sliceStep subsample p3.1 ms).2)
  let s4 := p4.1
  let m1 := p4.2
  match computeSizes m1 with
  | none => ([], s4, none)
  | some sizes =>
    ([SideEffect.savefig ("single_nebula_1.png"), SideEffect.tight_layout, SideEffect.showFig],
     s4,
     some { scatter_x := x1
            scatter_y := y1
            scatter_z := z1
            masses_used := m1
            sizes := sizes
            color := "royalblue"
            alpha := 3 / 10
            edgecolors := "none"
            depthshade := true
            xlabel := "X [kpc]"
            ylabel := "Y [kpc]"
            zlabel := "Z [kpc]"
            title_count := x1.length
            grid := false
            elev := 30
            azim := 45 })

/-! ## Helper lemmas -/

theorem everyNth_nil (k : Nat) : everyNth k [] = [] := rfl

theorem everyNthAux_eq_drop (k : Nat) : ∀ (c : Nat) (l : List ℚ),
    everyNthAux k c l = everyNth k (l.drop c) := by
  intro c
  induction c with
  | zero => intro l; rw [List.drop_zero]; rfl
  | succ c ih =>
    intro l
    cases l with
    | nil => rfl
    | cons a rest =>
      show everyNthAux k c rest = everyNth k ((a :: rest).drop (c + 1))
      rw [List.drop_succ_cons, ih]

theorem everyNth_cons (k : Nat) (a : ℚ) (rest : List ℚ) :
    everyNth k (a :: rest) = a :: everyNth k (rest.drop (k - 1)) := by
  show a :: everyNthAux k (k - 1) rest = _
  rw [everyNthAux_eq_drop]

theorem everyNth_one (l : List ℚ) : everyNth 1 l = l := by
  induction l with
  | nil => rfl
  | cons a rest ih => rw [everyNth_cons]; simp [ih]

theorem everyNth_length_fuel (k : Nat) (hk : 1 ≤ k) :
    ∀ (n : Nat) (l : List ℚ), l.length ≤ n →
      (everyNth k l).length = (l.length + k - 1) / k := by
  intro n
  induction n with
  | zero =>
    intro l hl
    have hnil : l = [] := List.eq_nil_of_length_eq_zero (by omega)
    subst hnil
    have h0 : (k - 1) / k = 0 := Nat.div_eq_of_lt (by omega)
    simp [everyNth_nil, h0]
  | succ m ih =>
    intro l hl
    cases l with
    | nil =>
      have h0 : (k - 1) / k = 0 := Nat.div_eq_of_lt (by omega)
      simp [everyNth_nil, h0]
    | cons a rest =>
      rw [everyNth_cons]
      have hrec := ih (rest.drop (k - 1))
        (by simp only [List.length_drop, List.length_cons] at hl ⊢; omega)
      simp only [List.length_cons, hrec, List.length_drop]
      rcases Nat.lt_or_ge rest.length (k - 1) with h | h
      · have h1 : rest.length - (k - 1) = 0 := by omega
        have h2 : rest.length + 1 + k - 1 = rest.length + k := by omega
        rw [h1, h2]
        have h3 : (0 + k - 1) / k = 0 := Nat.div_eq_of_lt (by omega)
        have h5 : (rest.length + k) / k = 1 := by
          rw [Nat.add_div_right _ (by omega), Nat.div_eq_of_lt (by omega)]
        rw [h3, h5]
      · have h1 : rest.length - (k - 1) + k - 1 = rest.length := by omega
        have h2 : rest.length + 1 + k - 1 = rest.length + k := by omega
        rw [h1, h2, Nat.add_div_right _ (by omega)]

theorem everyNth_length (k : Nat) (hk : 1 ≤ k) (l : List ℚ) :
    (everyNth k l).length = (l.length + k - 1) / k :=
  everyNth_length_fuel k hk l.length l (le_refl _)

theorem everyNth_getElem_fuel (k : Nat) (hk : 1 ≤ k) :
    ∀ (n : Nat) (l : List ℚ), l.length ≤ n →
      ∀ (i : Nat), (everyNth k l)[i]? = l[i * k]? := by
  intro n
  induction n with
  | zero =>
    intro l hl i
    have hnil : l = [] := List.eq_nil_of_length_eq_zero (by omega)
    subst hnil
    simp [everyNth_nil]
  | succ m ih =>
    intro l hl i
    cases l with
    | nil => simp [everyNth_nil]
    | cons a rest =>
      rw [everyNth_cons]
      cases i with
      | zero => simp
      | succ j =>
        rw [List.getElem?_cons_succ,
          ih (rest.drop (k - 1))
            (by simp only [List.length_drop, List.length_cons] at hl ⊢; omega) j,
          List.getElem?_drop]
        have he : k - 1 + j * k = (j + 1) * k - 1 := by
          cases k with
          | zero => omega
          | succ m2 => ring_nf; omega
        rw [he]
        have hpos : 1 ≤ (j + 1) * k := by
          calc 1 = 1 * 1 := rfl
          _ ≤ (j + 1) * k := Nat.mul_le_mul (by omega) hk
        cases h : (j + 1) * k with
        | zero => omega
        | succ m2 =>
          simp only [Nat.succ_sub_one]
          rw [List.getElem?_cons_succ]

theorem everyNth_getElem (k : Nat) (hk : 1 ≤ k) (l : List ℚ) (i : Nat) :
    (everyNth k l)[i]? = l[i * k]? :=
  everyNth_getElem_fuel k hk l.length l (le_refl _) i

theorem le_foldl_max (l : List ℚ) (a : ℚ) : a ≤ l.foldl max a := by
  induction l generalizing a with
  | nil => exact le_refl a
  | cons b t ih => exact le_trans (le_max_left a b) (ih (max a b))

theorem mem_le_foldl_max {x : ℚ} {l : List ℚ} (h : x ∈ l) (a : ℚ) :
    x ≤ l.foldl max a := by
  induction l generalizing a with
  | nil => cases h
  | cons b t ih =>
    rcases List.mem_cons.mp h with h1 | h1
    · subst h1
      exact le_trans (le_max_right a x) (le_foldl_max t (max a x))
    · exact ih h1 (max a b)

theorem npMax_is_ub {ms : List ℚ} {mx : ℚ} (h : npMax ms = some mx) :
    ∀ m ∈ ms, m ≤ mx := by
  cases ms with
  | nil => intro m hm; cases hm
  | cons a rest =>
    simp only [npMax, Option.some.injEq] at h
    subst h
    intro m hm
    rcases List.mem_cons.mp hm with h1 | h1
    · subst h1; exact le_foldl_max rest m
    · exact mem_le_foldl_max h1 a

theorem foldl_max_all_zero {l : List ℚ} (h : ∀ m ∈ l, m = 0) :
    l.foldl max (0 : ℚ) = 0 := by
  induction l with
  | nil => rfl
  | cons b t ih =>
    have hb : b = 0 := h b (List.mem_cons_self b t)
    subst hb
    simp only [List.foldl_cons, max_self]
    exact ih (fun m hm => h m (List.mem_cons_of_mem _ hm))

theorem npMax_all_zero {ms : List ℚ} (hne : ms ≠ []) (h : ∀ m ∈ ms, m = 0) :
    npMax ms = some 0 := by
  cases ms with
  | nil => exact absurd rfl hne
  | cons a rest =>
    have ha : a = 0 := h a (List.mem_cons_self a rest)
    subst ha
    simp only [npMax, Option.some.injEq]
    exact foldl_max_all_zero (fun m hm => h m (List.mem_cons_of_mem _ hm))

theorem sliceStep_val (k : Int) (st : Store) (a : List ℚ) :
    (sliceStep k st a).2 = if 1 < k then everyNth k.toNat a else a := by
  unfold sliceStep
  split <;> rfl

theorem sliceStep_store_app (k : Int) (st : Store) (a : List ℚ) :
    ∃ t, (sliceStep k st a).1.arrays = st.arrays ++ t := by
  unfold sliceStep
  split
  · exact ⟨_, rfl⟩
  · exact ⟨[], by simp⟩

theorem plot_unfold (s : Store) (xr yr zr : Nat) (mr : Option Nat) (k : Int) :
    plot_3d_particles s xr yr zr mr k =
      (match computeSizes ((mr.map s.readArr).map
          (fun a => if 1 < k then everyNth k.toNat a else a)) with
       | none => ([], (plot_3d_particles s xr yr zr mr k).2.1, none)
       | some sizes =>
         ([SideEffect.savefig ("single_nebula_1.png"), SideEffect.tight_layout,
           SideEffect.showFig],
          (plot_3d_particles s xr yr zr mr k).2.1,
          some { scatter_x := if 1 < k then everyNth k.toNat (s.readArr xr) else s.readArr xr
                 scatter_y := if 1 < k then everyNth k.toNat (s.readArr yr) else s.readArr yr
                 scatter_z := if 1 < k then everyNth k.toNat (s.readArr zr) else s.readArr zr
                 masses_used := (mr.map s.readArr).map
                   (fun a => if 1 < k then everyNth k.toNat a else a)
                 sizes := sizes
                 color := "royalblue"
                 alpha := 3 / 10
                 edgecolors := "none"
                 depthshade := true
                 xlabel := "X [kpc]"
                 ylabel := "Y [kpc]"
                 zlabel := "Z [kpc]"
                 title_count := (if 1 < k then everyNth k.toNat (s.readArr xr)
                   else s.readArr xr).length
                 grid := false
                 elev := 30
                 azim := 45 })) := by
  simp only [plot_3d_particles, sliceStep_val]
  cases mr with
  | none =>
    simp only [Option.map_none']
    rfl
  | some mref =>
    simp only [Option.map_some', sliceStep_val]
    cases hcs : computeSizes (some (if 1 < k then everyNth k.toNat (s.readArr mref)
        else s.readArr mref)) <;> rfl

theorem plot_store_app (s : Store) (xr yr zr : Nat) (mr : Option Nat) (k : Int) :
    ∃ t, (plot_3d_particles s xr yr zr mr k).2.1.arrays = s.arrays ++ t := by
  simp only [plot_3d_particles]
  obtain ⟨t1, h1⟩ := sliceStep_store_app k s (s.readArr xr)
  obtain ⟨t2, h2⟩ := sliceStep_store_app k (sliceStep k s (s.readArr xr)).1 (s.readArr yr)
  obtain ⟨t3, h3⟩ := sliceStep_store_app k
    (sliceStep k (sliceStep k s (s.readArr xr)).1 (s.readArr yr)).1 (s.readArr zr)
  cases mr with
  | none =>
    simp only [Option.map_none']
    cases hcs : computeSizes none with
    | none => exact ⟨t1 ++ (t2 ++ t3), by rw [h3, h2, h1]; simp [List.append_assoc]⟩
    | some sizes => exact ⟨t1 ++ (t2 ++ t3), by rw [h3, h2, h1]; simp [List.append_assoc]⟩
  | some mref =>
    simp only [Option.map_some']
    obtain ⟨t4, h4⟩ := sliceStep_store_app k
      (sliceStep k (sliceStep k (sliceStep k s (s.readArr xr)).1 (s.readArr yr)).1
        (s.readArr zr)).1 (s.readArr mref)
    cases hcs : computeSizes (some (sliceStep k
        (sliceStep k (sliceStep k (sliceStep k s (s.readArr xr)).1 (s.readArr yr)).1
          (s.readArr zr)).1 (s.readArr mref)).2) with
    | none =>
      exact ⟨t1 ++ (t2 ++ (t3 ++ t4)), by rw [h4, h3, h2, h1]; simp [List.append_assoc]⟩
    | some sizes =>
      exact ⟨t1 ++ (t2 ++ (t3 ++ t4)), by rw [h4, h3, h2, h1]; simp [List.append_assoc]⟩

/-! ## Claim theorems -/

/-- C1: for every well-formed input file whose group `PartType<part_type>`
contains an N×3 `Coordinates` table `raw`, `load_particle_data` returns
arrays x, y, z with, for every index i, `x[i] = raw[i].1 / 3.0857e21`,
`y[i] = raw[i].2.1 / 3.0857e21` and `z[i] = raw[i].2.2 / 3.0857e21`
(all three columns have length N; out-of-range reads agree as `none`). -/
theorem C1_load_converts_coordinates (file : H5File) (part_type : Nat)
    (g : H5Group) (raw : List (ℚ × ℚ × ℚ))
    (hg : file.findGroup ("PartType" ++ toString part_type) = some g)
    (hc : g.coordinates = some raw) :
    ∃ d : LoadedData,
      (load_particle_data file part_type).2.2 = Except.ok d ∧
      d.x.length = raw.length ∧ d.y.length = raw.length ∧ d.z.length = raw.length ∧
      (∀ i : Nat, d.x[i]? = (raw[i]?).map (fun c => c.1 / CM_PER_KPC)) ∧
      (∀ i : Nat, d.y[i]? = (raw[i]?).map (fun c => c.2.1 / CM_PER_KPC)) ∧
      (∀ i : Nat, d.z[i]? = (raw[i]?).map (fun c => c.2.2 / CM_PER_KPC)) := by
  simp only [load_particle_data, load_body, hg, hc]
  refine ⟨_, rfl, by simp, by simp, by simp, ?_, ?_, ?_⟩ <;>
    · intro i
      simp only [List.getElem?_map, Option.map_map]
      cases raw[i]? <;> rfl

/-- Witness for C1: a two-particle file; the first row is (1 kpc, 0, 2 kpc)
in centimeters, the second (0, 1 kpc, 0). -/
theorem C1_load_converts_coordinates_witness :
    ∃ d : LoadedData,
      (load_particle_data
        ⟨[("PartType0", ⟨some [(30857 * 10 ^ 17, 0, 61714 * 10 ^ 17),
          (0, 30857 * 10 ^ 17, 0)], none⟩)]⟩ 0).2.2 = Except.ok d ∧
      d.x.length = 2 ∧ d.y.length = 2 ∧ d.z.length = 2 ∧
      (∀ i : Nat, d.x[i]? =
        (([(30857 * 10 ^ 17, 0, 61714 * 10 ^ 17), (0, 30857 * 10 ^ 17, 0)]
          : List (ℚ × ℚ × ℚ))[i]?).map (fun c => c.1 / CM_PER_KPC)) ∧
      (∀ i : Nat, d.y[i]? =
        (([(30857 * 10 ^ 17, 0, 61714 * 10 ^ 17), (0, 30857 * 10 ^ 17, 0)]
          : List (ℚ × ℚ × ℚ))[i]?).map (fun c => c.2.1 / CM_PER_KPC)) ∧
      (∀ i : Nat, d.z[i]? =
        (([(30857 * 10 ^ 17, 0, 61714 * 10 ^ 17), (0, 30857 * 10 ^ 17, 0)]
          : List (ℚ × ℚ × ℚ))[i]?).map (fun c => c.2.2 / CM_PER_KPC)) :=
  C1_load_converts_coordinates
    ⟨[("PartType0", ⟨some [(30857 * 10 ^ 17, 0, 61714 * 10 ^ 17),
      (0, 30857 * 10 ^ 17, 0)], none⟩)]⟩ 0
    ⟨some [(30857 * 10 ^ 17, 0, 61714 * 10 ^ 17), (0, 30857 * 10 ^ 17, 0)], none⟩
    [(30857 * 10 ^ 17, 0, 61714 * 10 ^ 17), (0, 30857 * 10 ^ 17, 0)]
    (by rfl) (by rfl)

/-- C4: for every input file whose particle group lacks a `Masses` table,
`load_particle_data` returns `none` for masses, and the renderer, given
null masses, assigns the broadcast constant size 0.1 to every plotted
point (the plot always succeeds in that case). -/
theorem C4_missing_masses_constant_size (file : H5File) (part_type : Nat)
    (g : H5Group) (raw : List (ℚ × ℚ × ℚ))
    (hg : file.findGroup ("PartType" ++ toString part_type) = some g)
    (hc : g.coordinates = some raw) (hm : g.masses = none)
    (s : Store) (xr yr zr : Nat) (k : Int) :
    (∃ d : LoadedData, (load_particle_data file part_type).2.2 = Except.ok d ∧
      d.masses = none) ∧
    (∃ r : RenderResult, (plot_3d_particles s xr yr zr none k).2.2 = some r ∧
      r.sizes = Sum.inl (1 / 10)) := by
  constructor
  · simp only [load_particle_data, load_body, hg, hc]
    exact ⟨_, rfl, hm⟩
  · rw [plot_unfold]
    simp only [Option.map_none', computeSizes]
    exact ⟨_, rfl, rfl⟩

/-- Witness for C4: the C1 witness file (its group has no Masses table)
and an empty store with arbitrary references. -/
theorem C4_missing_masses_constant_size_witness :
    (∃ d : LoadedData,
      (load_particle_data
        ⟨[("PartType0", ⟨some [(30857 * 10 ^ 17, 0, 61714 * 10 ^ 17),
          (0, 30857 * 10 ^ 17, 0)], none⟩)]⟩ 0).2.2 = Except.ok d ∧
      d.masses = none) ∧
    (∃ r : RenderResult, (plot_3d_particles ⟨[]⟩ 0 1 2 none 1).2.2 = some r ∧
      r.sizes = Sum.inl (1 / 10)) :=
  C4_missing_masses_constant_size
    ⟨[("PartType0", ⟨some [(30857 * 10 ^ 17, 0, 61714 * 10 ^ 17),
      (0, 30857 * 10 ^ 17, 0)], none⟩)]⟩ 0
    ⟨some [(30857 * 10 ^ 17, 0, 61714 * 10 ^ 17), (0, 30857 * 10 ^ 17, 0)], none⟩
    [(30857 * 10 ^ 17, 0, 61714 * 10 ^ 17), (0, 30857 * 10 ^ 17, 0)]
    (by rfl) (by rfl) (by rfl) ⟨[]⟩ 0 1 2 1

/-- C5: `load_particle_data` is deterministic and read-only: the file
state it returns is the input file unchanged, and calling it again on
that returned file produces the identical result (events, outcome and
arrays included). -/
theorem C5_load_deterministic_readonly (file : H5File) (part_type : Nat) :
    (load_particle_data file part_type).1 = file ∧
    load_particle_data ((load_particle_data file part_type).1) part_type
      = load_particle_data file part_type :=
  ⟨rfl, rfl⟩

/-- C8: on every execution of `load_particle_data` — the group present or
missing, the `Coordinates` table present or missing — the handle trace is
exactly open-then-close: the handle opened at the start is closed before
the call exits, on the success path and on every error path. -/
theorem C8_handle_closed (file : H5File) (part_type : Nat) :
    (load_particle_data file part_type).2.1
      = [FileEvent.openFile, FileEvent.closeFile] :=
  rfl

/-- C6: for every invocation of the renderer that draws a figure, the
observable side effects are, in this exact order: save the figure to the
fixed filename single_nebula_1.png, apply the layout-tightening pass,
then show the interactive window; in particular the save precedes the
layout-tightening. (On the only failing path — `np.max` of an empty mass
array — the error is raised before any side effect, so no effect is ever
emitted out of this order.) -/
theorem C6_effects_order (s : Store) (xr yr zr : Nat) (mr : Option Nat) (k : Int)
    (r : RenderResult) (hr : (plot_3d_particles s xr yr zr mr k).2.2 = some r) :
    (plot_3d_particles s xr yr zr mr k).1 =
      [SideEffect.savefig ("single_nebula_1.png"), SideEffect.tight_layout,
       SideEffect.showFig] := by
  rw [plot_unfold] at hr ⊢
  revert hr
  cases hcs : computeSizes ((mr.map s.readArr).map
      (fun a => if 1 < k then everyNth k.toNat a else a)) with
  | none => intro hr; cases hr
  | some sizes => intro hr; rfl

/-- Witness for C6: an empty store, no masses, stride 1. -/
theorem C6_effects_order_witness :
    (plot_3d_particles ⟨[]⟩ 0 1 2 none 1).1 =
      [SideEffect.savefig ("single_nebula_1.png"), SideEffect.tight_layout,
       SideEffect.showFig] :=
  C6_effects_order ⟨[]⟩ 0 1 2 none 1
    { scatter_x := []
      scatter_y := []
      scatter_z := []
      masses_used := none
      sizes := Sum.inl (1 / 10)
      color := "royalblue"
      alpha := 3 / 10
      edgecolors := "none"
      depthshade := true
      xlabel := "X [kpc]"
      ylabel := "Y [kpc]"
      zlabel := "Z [kpc]"
      title_count := 0
      grid := false
      elev := 30
      azim := 45 } (by rfl)

/-- C7: if every element of the non-null, nonempty mass array is zero,
the size computation divides zero by zero and yields a NaN size for every
point, and no error is raised (the result is `some`, not the raised
`none`). -/
theorem C7_all_zero_masses_nan (ms : List ℚ) (hne : ms ≠ [])
    (h0 : ∀ m ∈ ms, m = 0) :
    computeSizes (some ms) = some (Sum.inr (ms.map (fun _ => FVal.nan))) := by
  have hmax : npMax ms = some 0 := npMax_all_zero hne h0
  have hmap : ms.map (fun m => pointSize (fdiv m 0)) = ms.map (fun _ => FVal.nan) :=
    List.map_congr_left (fun m hm => by rw [h0 m hm]; rfl)
  simp only [computeSizes, hmax, hmap]

/-- Witness for C7: the all-zero mass array [0, 0]. -/
theorem C7_all_zero_masses_nan_witness :
    computeSizes (some [0, 0]) =
      some (Sum.inr (([0, 0] : List ℚ).map (fun _ => FVal.nan))) :=
  C7_all_zero_masses_nan [0, 0] (by decide) (by decide)

/-- C9: `plot_3d_particles` never mutates the caller's arrays: every array
present in the store before the call holds exactly the same elements after
it (the subsampled slices and derived sizes are fresh allocations appended
to the store). -/
theorem C9_no_mutation (s : Store) (xr yr zr : Nat) (mr : Option Nat) (k : Int) :
    ((plot_3d_particles s xr yr zr mr k).2.1.arrays).take s.arrays.length
      = s.arrays := by
  obtain ⟨t, ht⟩ := plot_store_app s xr yr zr mr k
  rw [ht, List.take_left]

/-- C10: for every subsample value at most 1 (including 0 and negative
values) the renderer skips the subsampling step entirely: the plotted
points are exactly the input arrays, the masses feed the sizes
unreduced, and no slice is allocated (the store is unchanged). -/
theorem C10_subsample_le_one_skips (s : Store) (xr yr zr : Nat) (mr : Option Nat)
    (k : Int) (hk : k ≤ 1) (r : RenderResult)
    (hr : (plot_3d_particles s xr yr zr mr k).2.2 = some r) :
    r.scatter_x = s.readArr xr ∧ r.scatter_y = s.readArr yr ∧
    r.scatter_z = s.readArr zr ∧ r.masses_used = mr.map s.readArr ∧
    (plot_3d_particles s xr yr zr mr k).2.1 = s := by
  have hs : ∀ st a, sliceStep k st a = (st, a) := by
    intro st a; unfold sliceStep; rw [if_neg (by omega)]
  simp only [plot_3d_particles, hs] at hr ⊢
  cases hm : mr with
  | none =>
    subst hm
    simp only [Option.map_none', computeSizes] at hr ⊢
    injection hr with hr
    subst hr
    simp
  | some mref =>
    subst hm
    simp only [Option.map_some'] at hr ⊢
    revert hr
    cases hcs : computeSizes (some (s.readArr mref)) with
    | none => intro hr; simp at hr
    | some sizes =>
      intro hr
      injection hr with hr
      subst hr
      simp

/-- Witness for C10: a three-array store with a mass array, stride 0. -/
theorem C10_subsample_le_one_skips_witness :
    (({ scatter_x := [1, 2]
        scatter_y := [3, 4]
        scatter_z := [5, 6]
        masses_used := some [2, 4]
        sizes := Sum.inr [FVal.num (51 / 20), FVal.num 5]
        color := "royalblue"
        alpha := 3 / 10
        edgecolors := "none"
        depthshade := true
        xlabel := "X [kpc]"
        ylabel := "Y [kpc]"
        zlabel := "Z [kpc]"
        title_count := 2
        grid := false
        elev := 30
        azim := 45 } : RenderResult).scatter_x
        = Store.readArr ⟨[[1, 2], [3, 4], [5, 6], [2, 4]]⟩ 0) ∧
    (({ scatter_x := [1, 2]
        scatter_y := [3, 4]
        scatter_z := [5, 6]
        masses_used := some [2, 4]
        sizes := Sum.inr [FVal.num (51 / 20), FVal.num 5]
        color := "royalblue"
        alpha := 3 / 10
        edgecolors := "none"
        depthshade := true
        xlabel := "X [kpc]"
        ylabel := "Y [kpc]"
        zlabel := "Z [kpc]"
        title_count := 2
        grid := false
        elev := 30
        azim := 45 } : RenderResult).scatter_y
        = Store.readArr ⟨[[1, 2], [3, 4], [5, 6], [2, 4]]⟩ 1) ∧
    (({ scatter_x := [1, 2]
        scatter_y := [3, 4]
        scatter_z := [5, 6]
        masses_used := some [2, 4]
        sizes := Sum.inr [FVal.num (51 / 20), FVal.num 5]
        color := "royalblue"
        alpha := 3 / 10
        edgecolors := "none"
        depthshade := true
        xlabel := "X [kpc]"
        ylabel := "Y [kpc]"
        zlabel := "Z [kpc]"
        title_count := 2
        grid := false
        elev := 30
        azim := 45 } : RenderResult).scatter_z
        = Store.readArr ⟨[[1, 2], [3, 4], [5, 6], [2, 4]]⟩ 2) ∧
    (({ scatter_x := [1, 2]
        scatter_y := [3, 4]
        scatter_z := [5, 6]
        masses_used := some [2, 4]
        sizes := Sum.inr [FVal.num (51 / 20), FVal.num 5]
        color := "royalblue"
        alpha := 3 / 10
        edgecolors := "none"
        depthshade := true
        xlabel := "X [kpc]"
        ylabel := "Y [kpc]"
        zlabel := "Z [kpc]"
        title_count := 2
        grid := false
        elev := 30
        azim := 45 } : RenderResult).masses_used
        = (some 3 : Option Nat).map (Store.readArr ⟨[[1, 2], [3, 4], [5, 6], [2, 4]]⟩)) ∧
    (plot_3d_particles ⟨[[1, 2], [3, 4], [5, 6], [2, 4]]⟩ 0 1 2 (some 3) 0).2.1
      = ⟨[[1, 2], [3, 4], [5, 6], [2, 4]]⟩ :=
  C10_subsample_le_one_skips ⟨[[1, 2], [3, 4], [5, 6], [2, 4]]⟩ 0 1 2 (some 3) 0
    (by decide) _
    (by norm_num [plot_3d_particles, sliceStep, computeSizes, npMax, fdiv, pointSize,
      Store.readArr])

/-- C2: for every input and every subsample stride k ≥ 1, the renderer's
subsampling yields exactly ceil(N/k) = (N + k - 1) / k points, namely the
elements at indices 0, k, 2k, ..., and it is applied identically to x, y,
z and (when present) the masses. (For k ≤ 1 the code skips the step, which
coincides with the stride-1 slice; see C10 for k < 1.) -/
theorem C2_subsample_stride (s : Store) (xr yr zr : Nat) (mr : Option Nat)
    (k : Int) (hk : 1 ≤ k) (r : RenderResult)
    (hr : (plot_3d_particles s xr yr zr mr k).2.2 = some r) :
    (r.scatter_x.length = ((s.readArr xr).length + k.toNat - 1) / k.toNat ∧
      ∀ i : Nat, r.scatter_x[i]? = (s.readArr xr)[i * k.toNat]?) ∧
    (r.scatter_y.length = ((s.readArr yr).length + k.toNat - 1) / k.toNat ∧
      ∀ i : Nat, r.scatter_y[i]? = (s.readArr yr)[i * k.toNat]?) ∧
    (r.scatter_z.length = ((s.readArr zr).length + k.toNat - 1) / k.toNat ∧
      ∀ i : Nat, r.scatter_z[i]? = (s.readArr zr)[i * k.toNat]?) ∧
    (∀ ms, mr.map s.readArr = some ms →
      r.masses_used = some (everyNth k.toNat ms) ∧
      (everyNth k.toNat ms).length = (ms.length + k.toNat - 1) / k.toNat ∧
      ∀ i : Nat, (everyNth k.toNat ms)[i]? = ms[i * k.toNat]?) := by
  have hk1 : 1 ≤ k.toNat := by omega
  have hif : ∀ a : List ℚ,
      (if 1 < k then everyNth k.toNat a else a) = everyNth k.toNat a := by
    intro a
    split
    · rfl
    · have hke : k = 1 := by omega
      subst hke
      rw [show ((1 : Int).toNat) = 1 from rfl, everyNth_one]
  rw [plot_unfold] at hr
  revert hr
  cases hcs : computeSizes ((mr.map s.readArr).map
      (fun a => if 1 < k then everyNth k.toNat a else a)) with
  | none => intro hr; cases hr
  | some sizes =>
    intro hr
    injection hr with hr
    subst hr
    refine ⟨⟨?_, ?_⟩, ⟨?_, ?_⟩, ⟨?_, ?_⟩, ?_⟩
    · simp only [hif]; exact everyNth_length _ hk1 _
    · intro i; simp only [hif]; exact everyNth_getElem _ hk1 _ i
    · simp only [hif]; exact everyNth_length _ hk1 _
    · intro i; simp only [hif]; exact everyNth_getElem _ hk1 _ i
    · simp only [hif]; exact everyNth_length _ hk1 _
    · intro i; simp only [hif]; exact everyNth_getElem _ hk1 _ i
    · intro ms hms
      refine ⟨?_, everyNth_length _ hk1 _, fun i => everyNth_getElem _ hk1 _ i⟩
      show ((mr.map s.readArr).map
        (fun a => if 1 < k then everyNth k.toNat a else a)) = some (everyNth k.toNat ms)
      rw [hms, Option.map_some', hif]

/-- Witness for C2: arrays of length 3 with a mass array, stride 2;
ceil(3/2) = 2 points survive, at indices 0 and 2. -/
theorem C2_subsample_stride_witness :
    ((([1, 3] : List ℚ).length = (([1, 2, 3] : List ℚ).length + 2 - 1) / 2 ∧
      ∀ i : Nat, ([1, 3] : List ℚ)[i]? = ([1, 2, 3] : List ℚ)[i * 2]?) ∧
     (([4, 6] : List ℚ).length = (([4, 5, 6] : List ℚ).length + 2 - 1) / 2 ∧
      ∀ i : Nat, ([4, 6] : List ℚ)[i]? = ([4, 5, 6] : List ℚ)[i * 2]?) ∧
     (([7, 9] : List ℚ).length = (([7, 8, 9] : List ℚ).length + 2 - 1) / 2 ∧
      ∀ i : Nat, ([7, 9] : List ℚ)[i]? = ([7, 8, 9] : List ℚ)[i * 2]?) ∧
     (∀ ms, some ([2, 4] : List ℚ) = some ms →
       some ([2] : List ℚ) = some (everyNth 2 ms) ∧
       (everyNth 2 ms).length = (ms.length + 2 - 1) / 2 ∧
       ∀ i : Nat, (everyNth 2 ms)[i]? = ms[i * 2]?)) :=
  C2_subsample_stride ⟨[[1, 2, 3], [4, 5, 6], [7, 8, 9], [2, 4]]⟩ 0 1 2 (some 3) 2
    (by decide)
    { scatter_x := [1, 3]
      scatter_y := [4, 6]
      scatter_z := [7, 9]
      masses_used := some [2]
      sizes := Sum.inr [FVal.num 5]
      color := "royalblue"
      alpha := 3 / 10
      edgecolors := "none"
      depthshade := true
      xlabel := "X [kpc]"
      ylabel := "Y [kpc]"
      zlabel := "Z [kpc]"
      title_count := 2
      grid := false
      elev := 30
      azim := 45 }
    (by norm_num [plot_3d_particles, sliceStep, Store.alloc, Store.readArr,
      computeSizes, npMax, fdiv, pointSize, everyNth, everyNthAux])

/-- Counterexample for C3: the claim asserts that for every non-null mass
array with strictly positive maximum all sizes lie in [0.1, 5.0]; for the
mass array [-1, 1] the maximum is 1 > 0 yet the code assigns the first
point the size 0.1 + 4.9 * (-1/1) = -4.8, which is below 0.1. -/
theorem C3_size_range_counterexample :
    npMax [-1, 1] = some 1 ∧ (0 : ℚ) < 1 ∧
    computeSizes (some [-1, 1])
      = some (Sum.inr [FVal.num (-24 / 5), FVal.num 5]) ∧
    ¬ (1 / 10 ≤ (-24 / 5 : ℚ)) := by
  refine ⟨?_, by norm_num, ?_, by norm_num⟩
  · norm_num [npMax, max_def]
  · norm_num [computeSizes, npMax, fdiv, pointSize, max_def]

/-- C3 (amended): for every non-null mass array with strictly positive
maximum mx the renderer assigns point sizes 0.1 + 4.9 * (masses[i] / mx);
in particular for masses [2, 4, 8] the sizes are [1.325, 2.55, 5.0]; and
when additionally every mass is nonnegative, all sizes lie in [0.1, 5.0]. -/
theorem C3_size_normalization_amended (ms : List ℚ) (mx : ℚ)
    (hmx : npMax ms = some mx) (hpos : 0 < mx) :
    computeSizes (some ms)
      = some (Sum.inr (ms.map (fun m => FVal.num (1 / 10 + 49 / 10 * (m / mx))))) ∧
    ((∀ m ∈ ms, 0 ≤ m) →
      ∀ m ∈ ms, 1 / 10 ≤ 1 / 10 + 49 / 10 * (m / mx) ∧
        1 / 10 + 49 / 10 * (m / mx) ≤ 5) ∧
    computeSizes (some [2, 4, 8])
      = some (Sum.inr [FVal.num (53 / 40), FVal.num (51 / 20), FVal.num 5]) := by
  refine ⟨?_, ?_, ?_⟩
  · have hmap : ms.map (fun m => pointSize (fdiv m mx))
        = ms.map (fun m => FVal.num (1 / 10 + 49 / 10 * (m / mx))) :=
      List.map_congr_left (fun m hm => by
        simp only [fdiv, if_neg (ne_of_gt hpos)]
        rfl)
    simp only [computeSizes, hmx, hmap]
  · intro hnn m hm
    have h1 : 0 ≤ m / mx := div_nonneg (hnn m hm) hpos.le
    have h2 : m / mx ≤ 1 := (div_le_one hpos).mpr (npMax_is_ub hmx m hm)
    constructor <;> nlinarith
  · norm_num [computeSizes, npMax, fdiv, pointSize, max_def]

/-- Witness for C3 (amended): the spec's own example, masses [2, 4, 8]. -/
theorem C3_size_normalization_amended_witness :
    (computeSizes (some [2, 4, 8])
      = some (Sum.inr (([2, 4, 8] : List ℚ).map
          (fun m => FVal.num (1 / 10 + 49 / 10 * (m / 8))))) ∧
    ((∀ m ∈ ([2, 4, 8] : List ℚ), 0 ≤ m) →
      ∀ m ∈ ([2, 4, 8] : List ℚ), 1 / 10 ≤ 1 / 10 + 49 / 10 * (m / 8) ∧
        1 / 10 + 49 / 10 * (m / 8) ≤ 5) ∧
    computeSizes (some [2, 4, 8])
      = some (Sum.inr [FVal.num (53 / 40), FVal.num (51 / 20), FVal.num 5])) ∧
    (∀ m ∈ ([2, 4, 8] : List ℚ), 0 ≤ m) :=
  ⟨C3_size_normalization_amended [2, 4, 8] 8 (by norm_num [npMax, max_def])
    (by norm_num), by norm_num⟩
